import Mathlib

/-!
Verification of the dbapi event-atomic record store, outbox dispatcher,
event codec and tenant replay, as a shallow embedding of the Go sources:

* `internal/adapters/sqlite/record_event_store.go`
* `internal/adapters/sqlite/event_repositories.go`
* `internal/core/usecase/kv_service.go` (OutboxDispatcher)
* `internal/core/usecase/event_codec.go`
* `internal/core/usecase/replay.go`
* `internal/core/usecase/audit_service.go`
* `internal/core/domain/auth.go`, `internal/core/domain/audit.go`

Modelling conventions: UTC instants are `Nat` (0 is Go's zero time),
Go `int` columns that can be negative are `Int`, JSON documents are
opaque `String`s, fallible database steps return `Except String`.
Database rows live in Lean lists in insertion (= autoincrement id) order.
-/

/-- Row of the `kv_entries` table (`entryModel` in the Go source). -/
structure EntryModel where
  key : String
  category : String
  value : String
  createdAt : Nat
  updatedAt : Nat
deriving DecidableEq, Repr

/-- Row of the `audit_events` table (`auditEventModel` in the Go source). -/
structure AuditRow where
  id : Nat
  eventID : String
  schemaVersion : Int
  tenantID : String
  aggregateType : String
  aggregateID : String
  aggregateVersion : Nat
  action : String
  actor : String
  source : String
  requestID : String
  correlationID : String
  causationID : String
  idempotencyKey : String
  beforeJSON : String
  afterJSON : String
  changedFieldsJSON : String
  occurredAt : Nat
deriving DecidableEq, Repr

/-- Row of the `outbox_events` table (`outboxEventModel` in the Go source). -/
structure OutboxRow where
  id : Nat
  eventID : String
  tenantID : String
  topic : String
  payloadJSON : String
  status : String
  attempts : Int
  nextAttemptAt : Nat
  lastError : String
  createdAt : Nat
  dispatchedAt : Option Nat
deriving DecidableEq, Repr

/-- The three tables touched by the event-atomic write path, plus the
sqlite autoincrement counters for the two event tables. -/
structure Store where
  entries : List EntryModel
  audit : List AuditRow
  outbox : List OutboxRow
  nextAuditID : Nat
  nextOutboxID : Nat
deriving DecidableEq, Repr

/-- `domain.Record`. -/
structure Record where
  tenantID : String
  collection : String
  id : String
  data : String
  createdAt : Nat
  updatedAt : Nat
deriving DecidableEq, Repr

/-- `domain.MutationMetadata`. -/
structure MutationMetadata where
  actor : String
  source : String
  requestID : String
  correlationID : String
  causationID : String
  idempotencyKey : String
  occurredAt : Nat
deriving DecidableEq, Repr

/-- `domain.MutationMetadata.Normalize`: empty actor/source become "api",
a zero `occurred_at` becomes the current UTC time `now`. -/
def normalizeMeta (now : Nat) (m : MutationMetadata) : MutationMetadata :=
  let m := if m.actor = "" then { m with actor := "api" } else m
  let m := if m.source = "" then { m with source := "api" } else m
  if m.occurredAt = 0 then { m with occurredAt := now } else m

/-- `domain.EventEnvelope`. -/
structure EventEnvelope where
  eventID : String
  eventType : String
  schemaVersion : Int
  tenantID : String
  aggregateType : String
  aggregateID : String
  aggregateVersion : Nat
  occurredAt : Nat
  correlationID : String
  causationID : String
  actor : String
  source : String
  payload : String
deriving DecidableEq, Repr

/-- `domain.CurrentEventSchemaVersion`. -/
def currentEventSchemaVersion : Int := 1

/-- Failure injection for the individual database statements inside the
write transaction, mirroring the repository's own rollback test which
injects a trigger failure at the outbox insert.  `some msg` makes the
corresponding statement fail with that driver message. -/
structure StepFaults where
  loadBefore : Option String
  mutate : Option String
  reload : Option String
  version : Option String
  auditInsert : Option String
  outboxInsert : Option String
deriving DecidableEq, Repr

/-- All statements succeed. -/
def noFaults : StepFaults :=
  { loadBefore := none, mutate := none, reload := none, version := none,
    auditInsert := none, outboxInsert := none }

/-- `recordKey` in record_event_store.go. -/
def recordKey (tenantID collection id : String) : String :=
  tenantID ++ "/" ++ collection ++ "/" ++ id

/-- `recordCategory` in record_event_store.go. -/
def recordCategory (tenantID collection : String) : String :=
  tenantID ++ "/" ++ collection

/-- `tx.Where("key = ?", key).First(...)`: the row with the given primary
key, if present. -/
def findEntry (entries : List EntryModel) (key : String) : Option EntryModel :=
  entries.find? (fun e => e.key == key)

/-- Insert with `ON CONFLICT (key) DO UPDATE SET category, value, updated_at`:
an existing row keeps its key and created_at. -/
def upsertEntry (entries : List EntryModel) (m : EntryModel) : List EntryModel :=
  if entries.any (fun e => e.key == m.key) then
    entries.map (fun e =>
      if e.key == m.key then
        { e with category := m.category, value := m.value, updatedAt := m.updatedAt }
      else e)
  else entries ++ [m]

/-- `tx.Where("key = ?", key).Delete(...)`. -/
def deleteEntry (entries : List EntryModel) (key : String) : List EntryModel :=
  entries.filter (fun e => !(e.key == key))

/-- The WHERE clause of `nextAggregateVersion`: rows of one aggregate
identity. -/
def aggKeyMatches (r : AuditRow) (tenantID collection id : String) : Bool :=
  r.tenantID == tenantID && r.aggregateType == collection && r.aggregateID == id

/-- `SELECT COALESCE(MAX(aggregate_version), 0)` over one aggregate's
audit rows. -/
def maxAggVersion (audit : List AuditRow) (tenantID collection id : String) : Nat :=
  ((audit.filter (fun r => aggKeyMatches r tenantID collection id)).map
    (fun r => r.aggregateVersion)).foldl Nat.max 0

/-- `nextAggregateVersion` in record_event_store.go. -/
def nextAggregateVersion (audit : List AuditRow) (tenantID collection id : String) : Nat :=
  maxAggVersion audit tenantID collection id + 1

/-- `mustJSON(map[string]any{"changed": ...})` (Go marshals map keys in
sorted order; the single key is "changed"). -/
def changedJSON (changed : Bool) : String :=
  "\x7b\"changed\":" ++ (if changed then "true" else "false") ++ "\x7d"

/-- Upsert event payload `mustJSON(map[...]{"record_id","collection","data"})`;
Go marshals map keys sorted: collection, data, record_id. -/
def upsertPayload (id collection data : String) : String :=
  "\x7b\"collection\":\"" ++ collection ++ "\",\"data\":" ++ data
    ++ ",\"record_id\":\"" ++ id ++ "\"\x7d"

/-- Delete event payload `mustJSON(map[...]{"record_id","collection"})`. -/
def deletePayload (id collection : String) : String :=
  "\x7b\"collection\":\"" ++ collection ++ "\",\"record_id\":\"" ++ id ++ "\"\x7d"

/-- `json.Marshal(envelope)` with the struct tags of domain.EventEnvelope,
fields in declaration order. -/
def marshalEnvelope (e : EventEnvelope) : String :=
  "\x7b\"event_id\":\"" ++ e.eventID
    ++ "\",\"event_type\":\"" ++ e.eventType
    ++ "\",\"schema_version\":" ++ toString e.schemaVersion
    ++ ",\"tenant_id\":\"" ++ e.tenantID
    ++ "\",\"aggregate_type\":\"" ++ e.aggregateType
    ++ "\",\"aggregate_id\":\"" ++ e.aggregateID
    ++ "\",\"aggregate_version\":" ++ toString e.aggregateVersion
    ++ ",\"occurred_at\":" ++ toString e.occurredAt
    ++ ",\"correlation_id\":\"" ++ e.correlationID
    ++ "\",\"causation_id\":\"" ++ e.causationID
    ++ "\",\"actor\":\"" ++ e.actor
    ++ "\",\"source\":\"" ++ e.source
    ++ "\",\"payload\":" ++ e.payload ++ "\x7d"

/-- The audit row built in `insertAuditAndOutbox`; `s.nextAuditID` stands
for the sqlite autoincrement id the INSERT assigns. -/
def mkAuditRow (s : Store) (rec : Record) (meta : MutationMetadata)
    (before after : Option EntryModel) (envelope : EventEnvelope) : AuditRow :=
  let beforeJSON := (before.map (fun e => e.value)).getD ""
  let afterJSON := (after.map (fun e => e.value)).getD ""
  { id := s.nextAuditID
    eventID := envelope.eventID
    schemaVersion := envelope.schemaVersion
    tenantID := rec.tenantID
    aggregateType := rec.collection
    aggregateID := rec.id
    aggregateVersion := envelope.aggregateVersion
    action := envelope.eventType
    actor := meta.actor
    source := meta.source
    requestID := meta.requestID
    correlationID := meta.correlationID
    causationID := meta.causationID
    idempotencyKey := meta.idempotencyKey
    beforeJSON := beforeJSON
    afterJSON := afterJSON
    changedFieldsJSON := changedJSON (!(beforeJSON == afterJSON))
    occurredAt := envelope.occurredAt }

/-- The outbox row built in `insertAuditAndOutbox`. -/
def mkOutboxRow (s : Store) (rec : Record) (envelope : EventEnvelope) : OutboxRow :=
  { id := s.nextOutboxID
    eventID := envelope.eventID
    tenantID := rec.tenantID
    topic := "events." ++ rec.tenantID ++ "." ++ envelope.eventType
    payloadJSON := marshalEnvelope envelope
    status := "pending"
    attempts := 0
    nextAttemptAt := envelope.occurredAt
    lastError := ""
    createdAt := envelope.occurredAt
    dispatchedAt := none }

/-- `insertAuditAndOutbox` in record_event_store.go: append the audit row,
then the outbox row, each insert fallible. -/
def insertAuditAndOutbox (faults : StepFaults) (s : Store) (rec : Record)
    (meta : MutationMetadata) (before after : Option EntryModel)
    (envelope : EventEnvelope) : Except String Store :=
  match faults.auditInsert with
  | some e => .error ("insert audit event: " ++ e)
  | none =>
    let s1 : Store :=
      { s with audit := s.audit ++ [mkAuditRow s rec meta before after envelope],
               nextAuditID := s.nextAuditID + 1 }
    match faults.outboxInsert with
    | some e => .error ("insert outbox event: " ++ e)
    | none =>
      .ok { s1 with outbox := s1.outbox ++ [mkOutboxRow s1 rec envelope],
                    nextOutboxID := s1.nextOutboxID + 1 }

/-- `gormsqlite.DB.WriteTX`: run the body in the single-writer transaction;
commit the mutated state on success, roll back to the caller's state on
any error. -/
def writeTX {α : Type} (s : Store) (body : Store → Except String (Store × α)) :
    Store × Except String α :=
  match body s with
  | .ok (s2, a) => (s2, .ok a)
  | .error e => (s, .error e)

/-- `RecordEventStore.UpsertWithEvents`.  `eventID` is the fresh UUID the
environment supplies (`uuid.NewString`), `now0` the current UTC time used
by metadata normalization. -/
def upsertWithEvents (faults : StepFaults) (eventID : String) (now0 : Nat)
    (s : Store) (rec : Record) (meta0 : MutationMetadata) :
    Store × Except String Record :=
  let meta := normalizeMeta now0 meta0
  writeTX s (fun s0 =>
    let key := recordKey rec.tenantID rec.collection rec.id
    let category := recordCategory rec.tenantID rec.collection
    match faults.loadBefore with
    | some e => .error ("load existing record: " ++ e)
    | none =>
      let before := findEntry s0.entries key
      let now := meta.occurredAt
      let model : EntryModel :=
        { key := key, category := category, value := rec.data,
          createdAt := now, updatedAt := now }
      match faults.mutate with
      | some e => .error ("upsert record: " ++ e)
      | none =>
        let entries1 := upsertEntry s0.entries model
        match faults.reload with
        | some e => .error ("load updated record: " ++ e)
        | none =>
          match findEntry entries1 key with
          | none => .error "load updated record: record not found"
          | some after =>
            let action := if before.isNone then "record.created" else "record.updated"
            match faults.version with
            | some e => .error ("query aggregate version: " ++ e)
            | none =>
              let aggregateVersion :=
                nextAggregateVersion s0.audit rec.tenantID rec.collection rec.id
              let envelope : EventEnvelope :=
                { eventID := eventID
                  eventType := action
                  schemaVersion := currentEventSchemaVersion
                  tenantID := rec.tenantID
                  aggregateType := rec.collection
                  aggregateID := rec.id
                  aggregateVersion := aggregateVersion
                  occurredAt := now
                  correlationID := meta.correlationID
                  causationID := meta.causationID
                  actor := meta.actor
                  source := meta.source
                  payload := upsertPayload rec.id rec.collection after.value }
              match insertAuditAndOutbox faults { s0 with entries := entries1 }
                  rec meta before (some after) envelope with
              | .error e => .error e
              | .ok s2 =>
                .ok (s2,
                  { tenantID := rec.tenantID, collection := rec.collection,
                    id := rec.id, data := after.value,
                    createdAt := after.createdAt, updatedAt := after.updatedAt }))

/-- `RecordEventStore.DeleteWithEvents`. -/
def deleteWithEvents (faults : StepFaults) (eventID : String) (now0 : Nat)
    (s : Store) (tenantID collection id : String) (meta0 : MutationMetadata) :
    Store × Except String Bool :=
  let meta := normalizeMeta now0 meta0
  writeTX s (fun s0 =>
    let key := recordKey tenantID collection id
    match faults.loadBefore with
    | some e => .error ("load record before delete: " ++ e)
    | none =>
      match findEntry s0.entries key with
      | none => .ok (s0, false)
      | some before =>
        match faults.mutate with
        | some e => .error ("delete record: " ++ e)
        | none =>
          let entries1 := deleteEntry s0.entries key
          match faults.version with
          | some e => .error ("query aggregate version: " ++ e)
          | none =>
            let aggregateVersion := nextAggregateVersion s0.audit tenantID collection id
            let envelope : EventEnvelope :=
              { eventID := eventID
                eventType := "record.deleted"
                schemaVersion := currentEventSchemaVersion
                tenantID := tenantID
                aggregateType := collection
                aggregateID := id
                aggregateVersion := aggregateVersion
                occurredAt := meta.occurredAt
                correlationID := meta.correlationID
                causationID := meta.causationID
                actor := meta.actor
                source := meta.source
                payload := deletePayload id collection }
            let rec0 : Record :=
              { tenantID := tenantID, collection := collection, id := id,
                data := "", createdAt := 0, updatedAt := 0 }
            match insertAuditAndOutbox faults { s0 with entries := entries1 }
                rec0 meta (some before) none envelope with
            | .error e => .error e
            | .ok s2 => .ok (s2, true))

/-- `OutboxRepository.FetchPending`: pending rows due at `now`, in id
order (= list order), limited (limit ≤ 0 defaults to 50). -/
def fetchPending (outbox : List OutboxRow) (now : Nat) (limit : Int) : List OutboxRow :=
  let lim := if limit ≤ 0 then (50 : Int) else limit
  (outbox.filter (fun r => r.status == "pending" && r.nextAttemptAt ≤ now)).take lim.toNat


/-- One step of the schema upcaster chain (`usecase.Upcaster`). -/
structure Upcaster where
  fromVersion : Int
  toVersion : Int
  upcast : String → Except String String

/-- `usecase.EventCodec`: the registered upcasters (in registration order;
lookups see the last registration for a given from-version, as with the
Go map built by `NewEventCodec`). -/
structure EventCodec where
  upcasters : List Upcaster

/-- `NewEventCodec`. -/
def newEventCodec (ups : List Upcaster) : EventCodec :=
  { upcasters := ups }

/-- The lookup `c.upcasters[v]`: the Go map keeps the last upcaster
registered for each from-version, hence the reversed search. -/
def lookupUpcaster (c : EventCodec) (v : Int) : Option Upcaster :=
  c.upcasters.reverse.find? (fun u => u.fromVersion == v)

/-- Errors of `EventCodec.Normalize`.  `fuelExhausted` stands for the
divergence of the Go loop when an upcaster violates its declared
`to_version = from_version + 1` contract; it cannot occur for
contract-abiding chains given the fuel `normalizeFuel` supplies. -/
inductive CodecError where
  | missingUpcaster (v : Int)
  | upcastFailed (fromVersion toVersion : Int) (msg : String)
  | fuelExhausted
deriving DecidableEq, Repr

/-- The loop of `EventCodec.Normalize`: while the version is below the
current schema version, look up and apply the upcaster for it. -/
def normalizeGo (c : EventCodec) : Nat → Int → String → Except CodecError (Int × String)
  | 0, _, _ => .error .fuelExhausted
  | fuel + 1, v, payload =>
    if v < currentEventSchemaVersion then
      match lookupUpcaster c v with
      | none => .error (.missingUpcaster v)
      | some up =>
        match up.upcast payload with
        | .error e => .error (.upcastFailed up.fromVersion up.toVersion e)
        | .ok next => normalizeGo c fuel up.toVersion next
    else .ok (v, payload)

/-- Fuel sufficient for any contract-abiding chain starting at version `v`. -/
def normalizeFuel (v : Int) : Nat :=
  (currentEventSchemaVersion - v).toNat + 1

/-- `EventCodec.Normalize`. -/
def normalizeEnv (c : EventCodec) (env : EventEnvelope) : Except CodecError EventEnvelope :=
  match normalizeGo c (normalizeFuel env.schemaVersion) env.schemaVersion env.payload with
  | .error e => .error e
  | .ok (v, payload) => .ok { env with schemaVersion := v, payload := payload }

/-- Character class of `domain.keyPattern`: letters, digits, dot,
underscore, colon, slash and hyphen. -/
def isKeyChar (c : Char) : Bool :=
  c.isAlpha || c.isDigit || c == '.' || c == '_' || c == ':' || c == '/' || c == '-'

/-- `domain.ValidateKey`: non-empty and all characters in the key charset. -/
def validateKey (k : String) : Bool :=
  !(k == "") && k.toList.all isKeyChar

/-- `domain.ValidateCategory` (same pattern as keys). -/
def validateCategory (k : String) : Bool :=
  !(k == "") && k.toList.all isKeyChar

/-- `domain.AuditFilter`. -/
structure AuditFilter where
  tenantID : String
  aggregateType : String
  aggregateID : String
  action : String
  afterID : Nat
  limit : Int
deriving DecidableEq, Repr

/-- `AuditTrailRepository.List`: tenant (and optional aggregate/action)
filter, `id < after_id` when `after_id > 0`, `ORDER BY id DESC`,
`LIMIT limit`.  The store keeps audit rows in ascending id order, so
descending id order is the reverse of the filtered list. -/
def auditRepoList (audit : List AuditRow) (f : AuditFilter) : List AuditRow :=
  ((audit.filter (fun r =>
      r.tenantID == f.tenantID
      && (f.aggregateType == "" || r.aggregateType == f.aggregateType)
      && (f.aggregateID == "" || r.aggregateID == f.aggregateID)
      && (f.action == "" || r.action == f.action)
      && (decide (f.afterID = 0) || decide (r.id < f.afterID)))).reverse).take f.limit.toNat

/-- `AuditService.List`: validate the filter, clamp the limit to
[1, 1000] with default 100, then query the repository. -/
def auditServiceList (audit : List AuditRow) (f : AuditFilter) :
    Except String (List AuditRow) :=
  if !(validateKey f.tenantID) then .error "invalid key"
  else if !(f.aggregateType == "") && !(validateCategory f.aggregateType) then
    .error "invalid category"
  else if !(f.aggregateID == "") && !(validateKey f.aggregateID) then
    .error "invalid key"
  else
    let lim := if f.limit ≤ 0 then (100 : Int) else if f.limit > 1000 then 1000 else f.limit
    .ok (auditRepoList audit { f with limit := lim })

/-- `usecase.ReplayEvent`. -/
structure ReplayEvent where
  envelope : EventEnvelope
  auditID : Nat
deriving DecidableEq, Repr

/-- Errors of `ReplayTenantEvents` (the Go code wraps them as strings;
the constructors keep the wrapped cause). -/
inductive ReplayError where
  | listFailed (msg : String)
  | normalizeFailed (eventID : String) (e : CodecError)
  | applyFailed (eventID msg : String)
  | fuelExhausted
deriving DecidableEq, Repr

/-- The envelope `ReplayTenantEvents` builds from an audit row: copy the
fields and use `after_json` as payload, or the empty JSON object if
absent. -/
def envelopeOfAudit (e : AuditRow) : EventEnvelope :=
  { eventID := e.eventID
    eventType := e.action
    schemaVersion := e.schemaVersion
    tenantID := e.tenantID
    aggregateType := e.aggregateType
    aggregateID := e.aggregateID
    aggregateVersion := e.aggregateVersion
    occurredAt := e.occurredAt
    correlationID := e.correlationID
    causationID := e.causationID
    actor := e.actor
    source := e.source
    payload := if e.afterJSON.length > 0 then e.afterJSON else "\x7b\x7d" }

/-- The inner for-loop of `ReplayTenantEvents` over one listed batch:
normalize each event through the codec and hand it to the applier,
advancing the cursor to the last seen id; stop at the first error.
Returns the events actually passed to the applier, the final cursor and
the error, if any. -/
def replayBatch (codec : EventCodec) (applyFn : ReplayEvent → Except String Unit) :
    List AuditRow → Nat → List ReplayEvent × Nat × Option ReplayError
  | [], afterID => ([], afterID, none)
  | e :: rest, afterID =>
    match normalizeEnv codec (envelopeOfAudit e) with
    | .error ce => ([], afterID, some (.normalizeFailed e.eventID ce))
    | .ok normalized =>
      match applyFn { envelope := normalized, auditID := e.id } with
      | .error msg => ([], afterID, some (.applyFailed e.eventID msg))
      | .ok _ =>
        let (tr, aid, res) := replayBatch codec applyFn rest e.id
        ({ envelope := normalized, auditID := e.id } :: tr, aid, res)

/-- The outer loop of `ReplayTenantEvents`: list a batch below the cursor,
stop when it is empty, otherwise process it and continue from the new
cursor.  `fuel` bounds the number of iterations; the Go loop terminates
because the positive cursor strictly decreases. -/
def replayLoop (codec : EventCodec) (audit : List AuditRow) (tenantID : String)
    (batchSize : Int) (applyFn : ReplayEvent → Except String Unit) :
    Nat → Nat → List ReplayEvent × Option ReplayError
  | 0, _ => ([], some .fuelExhausted)
  | fuel + 1, afterID =>
    match auditServiceList audit
        { tenantID := tenantID, aggregateType := "", aggregateID := "",
          action := "", afterID := afterID, limit := batchSize } with
    | .error e => ([], some (.listFailed e))
    | .ok events =>
      if events.isEmpty then ([], none)
      else
        match replayBatch codec applyFn events afterID with
        | (tr, _aid, some err) => (tr, some err)
        | (tr, aid, none) =>
          let (tr2, res2) := replayLoop codec audit tenantID batchSize applyFn fuel aid
          (tr ++ tr2, res2)

/-- `usecase.ReplayTenantEvents`, starting from cursor 0. -/
def replayTenantEvents (codec : EventCodec) (audit : List AuditRow)
    (tenantID : String) (batchSize : Int)
    (applyFn : ReplayEvent → Except String Unit) (fuel : Nat) :
    List ReplayEvent × Option ReplayError :=
  replayLoop codec audit tenantID batchSize applyFn fuel 0

/-- The collaborators `OutboxDispatcher.dispatchBatch` calls per event:
`json.Unmarshal` of the payload, the injected publisher, and the three
repository mark-operations. -/
structure DispatchDeps where
  decode : String → Except String EventEnvelope
  publish : String → EventEnvelope → Except String Unit
  markDispatched : Nat → Except String Unit
  markFailed : Nat → Int → Nat → String → Except String Unit
  markDead : Nat → Int → String → Except String Unit

/-- The dispatcher's three atomic counters. -/
structure DispatchCounters where
  success : Nat
  failure : Nat
  dead : Nat
deriving DecidableEq, Repr

/-- A repository mark-call performed by the dispatcher, with its
arguments. -/
inductive MarkCall where
  | dispatched (id : Nat)
  | failed (id : Nat) (attempts : Int) (nextAttemptAt : Nat) (msg : String)
  | dead (id : Nat) (attempts : Int) (msg : String)
deriving DecidableEq, Repr

/-- Configuration fields of `usecase.OutboxDispatcher`. -/
structure OutboxDispatcherCfg where
  interval : Int
  batchSize : Int
  maxRetry : Int
deriving DecidableEq, Repr

/-- `NewOutboxDispatcher`: interval defaults to 2 s if ≤ 0, batch size to
50 if ≤ 0, maxRetry is fixed at 5. -/
def newOutboxDispatcher (interval batchSize : Int) : OutboxDispatcherCfg :=
  { interval := if interval ≤ 0 then 2 else interval,
    batchSize := if batchSize ≤ 0 then 50 else batchSize,
    maxRetry := 5 }

/-- `backoffDuration` in kv_service.go, in seconds: 1 s for attempt ≤ 1,
else attempt² seconds capped at 5 minutes (= 300 s). -/
def backoffDuration (attempt : Int) : Nat :=
  if attempt ≤ 1 then 1
  else
    let d := attempt * attempt
    if d > 300 then 300 else d.toNat

/-- Backoff as the specification words it: 1 second for attempts ≤ 1,
otherwise attempts-squared seconds, capped at 5 minutes. -/
def backoffSpec (attempt : Int) : Nat :=
  if attempt ≤ 1 then 1 else min (attempt * attempt).toNat 300

/-- `OutboxDispatcher.markFailure`: bump the attempt count; at or above
the retry budget mark the event dead (and bump the dead counter),
otherwise mark it failed with the next attempt scheduled after the
backoff.  A failing repository call propagates as the error. -/
def markFailureGo (deps : DispatchDeps) (maxRetry : Int) (now : Nat)
    (c : DispatchCounters) (ev : OutboxRow) (errMsg : String) :
    Except String (MarkCall × DispatchCounters) :=
  let attempts := ev.attempts + 1
  if attempts ≥ maxRetry then
    match deps.markDead ev.id attempts errMsg with
    | .error e => .error e
    | .ok _ => .ok (.dead ev.id attempts errMsg, { c with dead := c.dead + 1 })
  else
    let next := now + backoffDuration attempts
    match deps.markFailed ev.id attempts next errMsg with
    | .error e => .error e
    | .ok _ => .ok (.failed ev.id attempts next errMsg, c)

/-- The per-event loop of `OutboxDispatcher.dispatchBatch` over the
fetched pending events: decode, publish, mark; a decode or publish
failure is recorded via markFailure and the loop continues, while a
failing repository mark-call aborts the batch with that error.  Returns
the counters, the repository mark-calls performed, and the batch error,
if any. -/
def dispatchBatchGo (deps : DispatchDeps) (maxRetry : Int) (now : Nat) :
    DispatchCounters → List MarkCall → List OutboxRow →
    DispatchCounters × List MarkCall × Option String
  | c, calls, [] => (c, calls, none)
  | c, calls, ev :: rest =>
    match deps.decode ev.payloadJSON with
    | .error e =>
      match markFailureGo deps maxRetry now c ev ("decode payload: " ++ e) with
      | .error markErr => (c, calls, some markErr)
      | .ok (call, c1) =>
        dispatchBatchGo deps maxRetry now
          { c1 with failure := c1.failure + 1 } (calls ++ [call]) rest
    | .ok envelope =>
      match deps.publish ev.topic envelope with
      | .error e =>
        match markFailureGo deps maxRetry now c ev e with
        | .error markErr => (c, calls, some markErr)
        | .ok (call, c1) =>
          dispatchBatchGo deps maxRetry now
            { c1 with failure := c1.failure + 1 } (calls ++ [call]) rest
      | .ok _ =>
        match deps.markDispatched ev.id with
        | .error e => (c, calls, some e)
        | .ok _ =>
          dispatchBatchGo deps maxRetry now
            { c with success := c.success + 1 } (calls ++ [.dispatched ev.id]) rest

/-- Aggregate-version column of one aggregate's audit rows, in store
(= ascending id) order. -/
def versionsOf (audit : List AuditRow) (tenantID collection id : String) : List Nat :=
  (audit.filter (fun r => aggKeyMatches r tenantID collection id)).map
    (fun r => r.aggregateVersion)

/-- The gap-free version invariant: for every aggregate identity, the
aggregate_version values in ascending id order are 1, 2, 3, …. -/
def AggInv (audit : List AuditRow) : Prop :=
  ∀ tenantID collection id,
    versionsOf audit tenantID collection id =
      List.range' 1 (versionsOf audit tenantID collection id).length

/-- Well-formedness of the audit table as sqlite maintains it: rows are
listed in strictly ascending autoincrement id order, ids are positive
and below the next id to be assigned. -/
def AuditIdsWF (s : Store) : Prop :=
  List.Pairwise (fun a b => a.id < b.id) s.audit
    ∧ (∀ r ∈ s.audit, 1 ≤ r.id ∧ r.id < s.nextAuditID)
    ∧ 1 ≤ s.nextAuditID

/-- Well-formedness of a bare audit row list (ascending positive ids),
as produced by the store. -/
def AuditListWF (audit : List AuditRow) : Prop :=
  List.Pairwise (fun a b => a.id < b.id) audit ∧ ∀ r ∈ audit, 1 ≤ r.id

/-- A fresh database. -/
def emptyStore : Store :=
  { entries := [], audit := [], outbox := [], nextAuditID := 1, nextOutboxID := 1 }

/-- Concrete record fixture (scenario S1 of the specification). -/
def recU1 : Record :=
  { tenantID := "t1", collection := "users", id := "u1",
    data := "\x7b\"n\":\"A\"\x7d", createdAt := 0, updatedAt := 0 }

/-- Concrete metadata fixture. -/
def metaT : MutationMetadata :=
  { actor := "tester", source := "test", requestID := "req-1",
    correlationID := "corr-1", causationID := "cause-1",
    idempotencyKey := "idem-1", occurredAt := 7 }

/-- Fault injection at the outbox insert, as in the repository's own
rollback test. -/
def outboxFault : StepFaults :=
  { noFaults with outboxInsert := some "forced outbox failure" }

/-- Audit row fixture (current schema version). -/
def auditRow1 : AuditRow :=
  { id := 1, eventID := "e1", schemaVersion := 1, tenantID := "t1",
    aggregateType := "users", aggregateID := "u1", aggregateVersion := 1,
    action := "record.created", actor := "a", source := "api",
    requestID := "", correlationID := "", causationID := "",
    idempotencyKey := "", beforeJSON := "", afterJSON := "",
    changedFieldsJSON := "", occurredAt := 1 }

/-- Second audit row of the same aggregate. -/
def auditRow2 : AuditRow :=
  { auditRow1 with
    id := 2
    eventID := "e2"
    aggregateVersion := 2
    action := "record.updated"
    occurredAt := 2 }

/-- Audit row persisted at schema version 0 (below current). -/
def auditRow0 : AuditRow :=
  { auditRow1 with eventID := "e0", schemaVersion := 0 }

/-- A codec with no upcasters registered. -/
def emptyCodec : EventCodec := newEventCodec []

/-- An applier that accepts everything. -/
def applyOk : ReplayEvent → Except String Unit := fun _ => .ok ()

/-- Dispatcher collaborators whose repository mark-calls always succeed
and whose decode always fails. -/
def depsDecodeFail : DispatchDeps :=
  { decode := fun _ => .error "bad json",
    publish := fun _ _ => .ok (),
    markDispatched := fun _ => .ok (),
    markFailed := fun _ _ _ _ => .ok (),
    markDead := fun _ _ _ => .ok () }

/-- Pending outbox row fixture with 4 prior attempts. -/
def outboxEvA : OutboxRow :=
  { id := 1, eventID := "e1", tenantID := "t1",
    topic := "events.t1.record.created", payloadJSON := "x",
    status := "pending", attempts := 4, nextAttemptAt := 0,
    lastError := "", createdAt := 0, dispatchedAt := none }

/-- Pending outbox row fixture with 1 prior attempt. -/
def outboxEvB : OutboxRow :=
  { outboxEvA with id := 2, eventID := "e2", attempts := 1 }

/-- Zero counters. -/
def counters0 : DispatchCounters := { success := 0, failure := 0, dead := 0 }

/-- Stored entry for record fixture u1. -/
def entryU1 : EntryModel :=
  { key := "t1/users/u1", category := "t1/users",
    value := "\x7b\"n\":\"A\"\x7d", createdAt := 3, updatedAt := 3 }

/-- Store holding record u1 and its creation audit row. -/
def storeWithU1 : Store :=
  { entries := [entryU1], audit := [auditRow1], outbox := [],
    nextAuditID := 2, nextOutboxID := 2 }

/-- The record the fixture upsert on the empty store returns. -/
def recU1Result : Record :=
  { tenantID := "t1", collection := "users", id := "u1",
    data := "\x7b\"n\":\"A\"\x7d", createdAt := 7, updatedAt := 7 }

theorem writeTX_error_rollback {α : Type} (s : Store)
    (body : Store → Except String (Store × α)) (e : String)
    (h : (writeTX s body).2 = .error e) : (writeTX s body).1 = s := by
  unfold writeTX at h ⊢
  cases hb : body s with
  | ok p =>
    obtain ⟨s2, a⟩ := p
    simp_all
  | error e2 => simp_all

/-- Claim C1: if any step of the write transaction of UpsertWithEvents or
DeleteWithEvents fails, the whole transaction rolls back and the record
state, audit and outbox tables are exactly as before the call. -/
theorem C1_failed_write_rolls_back
    (f : StepFaults) (eid : String) (now0 : Nat) (s : Store) (rec : Record)
    (meta : MutationMetadata) (tenantID collection id : String)
    (dmeta : MutationMetadata) :
    (∀ e, (upsertWithEvents f eid now0 s rec meta).2 = .error e →
        (upsertWithEvents f eid now0 s rec meta).1 = s)
      ∧ (∀ e, (deleteWithEvents f eid now0 s tenantID collection id dmeta).2 = .error e →
        (deleteWithEvents f eid now0 s tenantID collection id dmeta).1 = s) := by
  constructor
  · intro e h
    exact writeTX_error_rollback s _ e h
  · intro e h
    exact writeTX_error_rollback s _ e h

/-- Claim C1 witness: injecting a failure at the outbox insert makes a
concrete upsert fail and leaves the empty store untouched. -/
theorem C1_failed_write_rolls_back_witness :
    (upsertWithEvents outboxFault "ev-1" 5 emptyStore recU1 metaT).2 =
        .error "insert outbox event: forced outbox failure"
      ∧ (upsertWithEvents outboxFault "ev-1" 5 emptyStore recU1 metaT).1 = emptyStore := by
  refine ⟨by rfl, ?_⟩
  exact (C1_failed_write_rolls_back outboxFault "ev-1" 5 emptyStore recU1 metaT
    "t1" "users" "u1" metaT).1 "insert outbox event: forced outbox failure" (by rfl)

/-- Claim C7: DeleteWithEvents on a key with no record row commits,
returns false without error, and leaves the store (state, audit and
outbox tables) unchanged. -/
theorem C7_delete_missing_row_noop
    (f : StepFaults) (eid : String) (now0 : Nat) (s : Store)
    (tenantID collection id : String) (meta : MutationMetadata)
    (hload : f.loadBefore = none)
    (hmiss : findEntry s.entries (recordKey tenantID collection id) = none) :
    deleteWithEvents f eid now0 s tenantID collection id meta = (s, .ok false) := by
  unfold deleteWithEvents writeTX
  simp only [hload, hmiss]

/-- Claim C7 witness: deleting a never-created record from the empty
store returns false and changes nothing. -/
theorem C7_delete_missing_row_noop_witness :
    deleteWithEvents noFaults "ev-1" 5 emptyStore "t1" "users" "u1" metaT =
      (emptyStore, .ok false) :=
  C7_delete_missing_row_noop noFaults "ev-1" 5 emptyStore "t1" "users" "u1" metaT
    (by rfl) (by rfl)

theorem upsert_ok_shape
    {f : StepFaults} {eid : String} {now0 : Nat} {s : Store} {rec : Record}
    {meta0 : MutationMetadata} {s' : Store} {r : Record}
    (h : upsertWithEvents f eid now0 s rec meta0 = (s', .ok r)) :
    ∃ a o,
      s'.entries = upsertEntry s.entries
        { key := recordKey rec.tenantID rec.collection rec.id,
          category := recordCategory rec.tenantID rec.collection,
          value := rec.data,
          createdAt := (normalizeMeta now0 meta0).occurredAt,
          updatedAt := (normalizeMeta now0 meta0).occurredAt }
      ∧ s'.audit = s.audit ++ [a]
      ∧ s'.outbox = s.outbox ++ [o]
      ∧ s'.nextAuditID = s.nextAuditID + 1
      ∧ s'.nextOutboxID = s.nextOutboxID + 1
      ∧ a.id = s.nextAuditID
      ∧ a.eventID = eid
      ∧ o.eventID = eid
      ∧ a.action = (if (findEntry s.entries
            (recordKey rec.tenantID rec.collection rec.id)).isNone
          then "record.created" else "record.updated")
      ∧ a.tenantID = rec.tenantID
      ∧ a.aggregateType = rec.collection
      ∧ a.aggregateID = rec.id
      ∧ a.aggregateVersion = nextAggregateVersion s.audit rec.tenantID rec.collection rec.id
      ∧ a.occurredAt = (normalizeMeta now0 meta0).occurredAt
      ∧ o.topic = "events." ++ rec.tenantID ++ "." ++ a.action
      ∧ o.status = "pending"
      ∧ o.attempts = 0
      ∧ o.lastError = ""
      ∧ o.createdAt = (normalizeMeta now0 meta0).occurredAt
      ∧ o.nextAttemptAt = (normalizeMeta now0 meta0).occurredAt := by
  unfold upsertWithEvents writeTX at h
  cases hf1 : f.loadBefore with
  | some e => simp [hf1] at h
  | none =>
  simp only [hf1] at h
  cases hf2 : f.mutate with
  | some e => simp [hf2] at h
  | none =>
  simp only [hf2] at h
  cases hf3 : f.reload with
  | some e => simp [hf3] at h
  | none =>
  simp only [hf3] at h
  cases hafter : findEntry (upsertEntry s.entries
      { key := recordKey rec.tenantID rec.collection rec.id,
        category := recordCategory rec.tenantID rec.collection,
        value := rec.data,
        createdAt := (normalizeMeta now0 meta0).occurredAt,
        updatedAt := (normalizeMeta now0 meta0).occurredAt })
      (recordKey rec.tenantID rec.collection rec.id) with
  | none => simp [hafter] at h
  | some after =>
  simp only [hafter] at h
  cases hf4 : f.version with
  | some e => simp [hf4] at h
  | none =>
  simp only [hf4] at h
  unfold insertAuditAndOutbox at h
  cases hf5 : f.auditInsert with
  | some e => simp [hf5] at h
  | none =>
  simp only [hf5] at h
  cases hf6 : f.outboxInsert with
  | some e => simp [hf6] at h
  | none =>
  simp only [hf6] at h
  rw [Prod.mk.injEq] at h
  obtain ⟨hs, hr⟩ := h
  subst hs
  exact ⟨_, _, rfl, rfl, rfl, rfl, rfl, rfl, rfl, rfl, rfl, rfl, rfl, rfl,
    rfl, rfl, rfl, rfl, rfl, rfl, rfl, rfl⟩

theorem delete_ok_true_shape
    {f : StepFaults} {eid : String} {now0 : Nat} {s : Store}
    {tenantID collection id : String} {meta0 : MutationMetadata} {s' : Store}
    (h : deleteWithEvents f eid now0 s tenantID collection id meta0 = (s', .ok true)) :
    ∃ a o before,
      findEntry s.entries (recordKey tenantID collection id) = some before
      ∧ s'.entries = deleteEntry s.entries (recordKey tenantID collection id)
      ∧ s'.audit = s.audit ++ [a]
      ∧ s'.outbox = s.outbox ++ [o]
      ∧ s'.nextAuditID = s.nextAuditID + 1
      ∧ s'.nextOutboxID = s.nextOutboxID + 1
      ∧ a.id = s.nextAuditID
      ∧ a.eventID = eid
      ∧ o.eventID = eid
      ∧ a.action = "record.deleted"
      ∧ a.tenantID = tenantID
      ∧ a.aggregateType = collection
      ∧ a.aggregateID = id
      ∧ a.aggregateVersion = nextAggregateVersion s.audit tenantID collection id
      ∧ a.occurredAt = (normalizeMeta now0 meta0).occurredAt
      ∧ o.topic = "events." ++ tenantID ++ "." ++ a.action
      ∧ o.status = "pending"
      ∧ o.attempts = 0
      ∧ o.lastError = ""
      ∧ o.createdAt = (normalizeMeta now0 meta0).occurredAt
      ∧ o.nextAttemptAt = (normalizeMeta now0 meta0).occurredAt := by
  unfold deleteWithEvents writeTX at h
  cases hf1 : f.loadBefore with
  | some e => simp [hf1] at h
  | none =>
  simp only [hf1] at h
  cases hbefore : findEntry s.entries (recordKey tenantID collection id) with
  | none => simp [hbefore] at h
  | some before =>
  simp only [hbefore] at h
  cases hf2 : f.mutate with
  | some e => simp [hf2] at h
  | none =>
  simp only [hf2] at h
  cases hf4 : f.version with
  | some e => simp [hf4] at h
  | none =>
  simp only [hf4] at h
  unfold insertAuditAndOutbox at h
  cases hf5 : f.auditInsert with
  | some e => simp [hf5] at h
  | none =>
  simp only [hf5] at h
  cases hf6 : f.outboxInsert with
  | some e => simp [hf6] at h
  | none =>
  simp only [hf6] at h
  rw [Prod.mk.injEq] at h
  obtain ⟨hs, hr⟩ := h
  subst hs
  exact ⟨_, _, before, rfl, rfl, rfl, rfl, rfl, rfl, rfl, rfl, rfl, rfl,
    rfl, rfl, rfl, rfl, rfl, rfl, rfl, rfl, rfl, rfl, rfl⟩

/-- Claim C2: every successful UpsertWithEvents, and every successful
DeleteWithEvents that found a row, appends exactly one audit row and
exactly one outbox row, both rows carry the same event_id, and the
outbox topic is "events." + tenant_id + "." + event_type. -/
theorem C2_success_appends_matching_audit_and_outbox
    (f : StepFaults) (eid : String) (now0 : Nat) (s : Store) (rec : Record)
    (meta0 : MutationMetadata) (tenantID collection id : String)
    (dmeta : MutationMetadata) :
    (∀ s' r, upsertWithEvents f eid now0 s rec meta0 = (s', .ok r) →
      ∃ a o, s'.audit = s.audit ++ [a] ∧ s'.outbox = s.outbox ++ [o]
        ∧ a.eventID = o.eventID
        ∧ o.topic = "events." ++ rec.tenantID ++ "." ++ a.action)
    ∧ (∀ s', deleteWithEvents f eid now0 s tenantID collection id dmeta = (s', .ok true) →
      ∃ a o, s'.audit = s.audit ++ [a] ∧ s'.outbox = s.outbox ++ [o]
        ∧ a.eventID = o.eventID
        ∧ o.topic = "events." ++ tenantID ++ "." ++ a.action) := by
  constructor
  · intro s' r h
    obtain ⟨a, o, -, haud, hout, -, -, -, hae, hoe, -, -, -, -, -, -, htopic,
      -, -, -, -, -⟩ := upsert_ok_shape h
    exact ⟨a, o, haud, hout, by rw [hae, hoe], htopic⟩
  · intro s' h
    obtain ⟨a, o, before, -, -, haud, hout, -, -, -, hae, hoe, -, -, -, -, -,
      -, htopic, -, -, -, -, -⟩ := delete_ok_true_shape h
    exact ⟨a, o, haud, hout, by rw [hae, hoe], htopic⟩

/-- Claim C2 witness: a concrete successful upsert on the empty store and
a concrete successful delete on a store holding the row. -/
theorem C2_success_appends_matching_audit_and_outbox_witness :
    (∃ a o, ((upsertWithEvents noFaults "ev-1" 5 emptyStore recU1 metaT).1).audit =
          emptyStore.audit ++ [a]
        ∧ ((upsertWithEvents noFaults "ev-1" 5 emptyStore recU1 metaT).1).outbox =
          emptyStore.outbox ++ [o]
        ∧ a.eventID = o.eventID
        ∧ o.topic = "events." ++ recU1.tenantID ++ "." ++ a.action)
    ∧ (∃ a o, ((deleteWithEvents noFaults "ev-2" 5 storeWithU1 "t1" "users" "u1" metaT).1).audit =
          storeWithU1.audit ++ [a]
        ∧ ((deleteWithEvents noFaults "ev-2" 5 storeWithU1 "t1" "users" "u1" metaT).1).outbox =
          storeWithU1.outbox ++ [o]
        ∧ a.eventID = o.eventID
        ∧ o.topic = "events." ++ "t1" ++ "." ++ a.action) := by
  constructor
  · exact (C2_success_appends_matching_audit_and_outbox noFaults "ev-1" 5 emptyStore
      recU1 metaT "t1" "users" "u1" metaT).1
      (upsertWithEvents noFaults "ev-1" 5 emptyStore recU1 metaT).1 recU1Result (by rfl)
  · exact (C2_success_appends_matching_audit_and_outbox noFaults "ev-2" 5 storeWithU1
      recU1 metaT "t1" "users" "u1" metaT).2
      (deleteWithEvents noFaults "ev-2" 5 storeWithU1 "t1" "users" "u1" metaT).1 (by rfl)

/-- Claim C6: the emitted event type of UpsertWithEvents is
record.created exactly when no row existed under the record's key before
the mutation, and record.updated otherwise; a DeleteWithEvents that
deleted an existing row emits record.deleted. -/
theorem C6_event_type_selection
    (f : StepFaults) (eid : String) (now0 : Nat) (s : Store) (rec : Record)
    (meta0 : MutationMetadata) (tenantID collection id : String)
    (dmeta : MutationMetadata) :
    (∀ s' r, upsertWithEvents f eid now0 s rec meta0 = (s', .ok r) →
      ∃ a, s'.audit = s.audit ++ [a]
        ∧ (a.action = "record.created" ↔
            findEntry s.entries (recordKey rec.tenantID rec.collection rec.id) = none)
        ∧ (a.action = "record.updated" ↔
            ∃ b, findEntry s.entries (recordKey rec.tenantID rec.collection rec.id) = some b))
    ∧ (∀ s', deleteWithEvents f eid now0 s tenantID collection id dmeta = (s', .ok true) →
      ∃ a, s'.audit = s.audit ++ [a] ∧ a.action = "record.deleted") := by
  constructor
  · intro s' r h
    obtain ⟨a, o, -, haud, -, -, -, -, -, -, hact, -, -, -, -, -, -, -, -, -,
      -, -⟩ := upsert_ok_shape h
    refine ⟨a, haud, ?_, ?_⟩
    · cases hb : findEntry s.entries (recordKey rec.tenantID rec.collection rec.id) with
      | none => simp [hb] at hact; simp [hact, hb]
      | some b => simp [hb] at hact; simp [hact, hb]
    · cases hb : findEntry s.entries (recordKey rec.tenantID rec.collection rec.id) with
      | none => simp [hb] at hact; simp [hact, hb]
      | some b => simp [hb] at hact; simp [hact, hb]
  · intro s' h
    obtain ⟨a, o, before, -, -, haud, -, -, -, -, -, -, hact, -, -, -, -, -,
      -, -, -, -, -, -⟩ := delete_ok_true_shape h
    exact ⟨a, haud, hact⟩

/-- Claim C6 witness: the concrete upsert on the empty store emits
record.created, and the concrete delete of an existing row emits
record.deleted. -/
theorem C6_event_type_selection_witness :
    (∃ a, ((upsertWithEvents noFaults "ev-1" 5 emptyStore recU1 metaT).1).audit =
          emptyStore.audit ++ [a]
        ∧ (a.action = "record.created" ↔
            findEntry emptyStore.entries (recordKey recU1.tenantID recU1.collection recU1.id) = none)
        ∧ (a.action = "record.updated" ↔
            ∃ b, findEntry emptyStore.entries
              (recordKey recU1.tenantID recU1.collection recU1.id) = some b))
    ∧ (∃ a, ((deleteWithEvents noFaults "ev-2" 5 storeWithU1 "t1" "users" "u1" metaT).1).audit =
          storeWithU1.audit ++ [a] ∧ a.action = "record.deleted") := by
  constructor
  · exact (C6_event_type_selection noFaults "ev-1" 5 emptyStore recU1 metaT
      "t1" "users" "u1" metaT).1
      (upsertWithEvents noFaults "ev-1" 5 emptyStore recU1 metaT).1 recU1Result (by rfl)
  · exact (C6_event_type_selection noFaults "ev-2" 5 storeWithU1 recU1 metaT
      "t1" "users" "u1" metaT).2
      (deleteWithEvents noFaults "ev-2" 5 storeWithU1 "t1" "users" "u1" metaT).1 (by rfl)

theorem normalizeMeta_occurredAt (now : Nat) (m : MutationMetadata) :
    (normalizeMeta now m).occurredAt =
      if m.occurredAt = 0 then now else m.occurredAt := by
  simp only [normalizeMeta]
  split_ifs <;> rfl

theorem not_mem_fetchPending {o : OutboxRow} {l : List OutboxRow} {now : Nat}
    {lim : Int} (h : now < o.nextAttemptAt) : o ∉ fetchPending l now lim := by
  intro hmem
  unfold fetchPending at hmem
  have h1 := List.mem_of_mem_take hmem
  have h2 := (List.mem_filter.mp h1).2
  simp only [Bool.and_eq_true, decide_eq_true_eq] at h2
  omega

/-- Claim C10: every successful UpsertWithEvents or DeleteWithEvents
enqueues an outbox row with status "pending", attempts 0, empty
last_error, and created_at = next_attempt_at = the envelope's
occurred_at, which is the caller-supplied occurred_at (replaced by the
current UTC time only when zero); a row with a future next_attempt_at is
not returned by FetchPending before that instant. -/
theorem C10_outbox_row_initialization
    (f : StepFaults) (eid : String) (now0 : Nat) (s : Store) (rec : Record)
    (meta0 : MutationMetadata) (tenantID collection id : String)
    (dmeta : MutationMetadata) :
    (∀ s' r, upsertWithEvents f eid now0 s rec meta0 = (s', .ok r) →
      ∃ o, s'.outbox = s.outbox ++ [o]
        ∧ o.status = "pending" ∧ o.attempts = 0 ∧ o.lastError = ""
        ∧ o.createdAt = (normalizeMeta now0 meta0).occurredAt
        ∧ o.nextAttemptAt = (normalizeMeta now0 meta0).occurredAt
        ∧ (normalizeMeta now0 meta0).occurredAt =
            (if meta0.occurredAt = 0 then now0 else meta0.occurredAt)
        ∧ ∀ now2 lim, now2 < o.nextAttemptAt → o ∉ fetchPending s'.outbox now2 lim)
    ∧ (∀ s', deleteWithEvents f eid now0 s tenantID collection id dmeta = (s', .ok true) →
      ∃ o, s'.outbox = s.outbox ++ [o]
        ∧ o.status = "pending" ∧ o.attempts = 0 ∧ o.lastError = ""
        ∧ o.createdAt = (normalizeMeta now0 dmeta).occurredAt
        ∧ o.nextAttemptAt = (normalizeMeta now0 dmeta).occurredAt
        ∧ (normalizeMeta now0 dmeta).occurredAt =
            (if dmeta.occurredAt = 0 then now0 else dmeta.occurredAt)
        ∧ ∀ now2 lim, now2 < o.nextAttemptAt → o ∉ fetchPending s'.outbox now2 lim) := by
  constructor
  · intro s' r h
    obtain ⟨a, o, -, -, hout, -, -, -, -, -, -, -, -, -, -, -, -, hstat, hatt,
      herr, hcre, hnext⟩ := upsert_ok_shape h
    refine ⟨o, hout, hstat, hatt, herr, hcre, hnext,
      normalizeMeta_occurredAt now0 meta0, ?_⟩
    intro now2 lim hlt
    exact not_mem_fetchPending hlt
  · intro s' h
    obtain ⟨a, o, before, -, -, -, hout, -, -, -, -, -, -, -, -, -, -, -, -,
      hstat, hatt, herr, hcre, hnext⟩ := delete_ok_true_shape h
    refine ⟨o, hout, hstat, hatt, herr, hcre, hnext,
      normalizeMeta_occurredAt now0 dmeta, ?_⟩
    intro now2 lim hlt
    exact not_mem_fetchPending hlt

/-- Claim C10 witness: the concrete upsert and delete fixtures produce
pending outbox rows stamped with the caller-supplied occurred_at 7. -/
theorem C10_outbox_row_initialization_witness :
    (∃ o, ((upsertWithEvents noFaults "ev-1" 5 emptyStore recU1 metaT).1).outbox =
          emptyStore.outbox ++ [o]
        ∧ o.status = "pending" ∧ o.attempts = 0 ∧ o.lastError = ""
        ∧ o.createdAt = (normalizeMeta 5 metaT).occurredAt
        ∧ o.nextAttemptAt = (normalizeMeta 5 metaT).occurredAt
        ∧ (normalizeMeta 5 metaT).occurredAt =
            (if metaT.occurredAt = 0 then 5 else metaT.occurredAt)
        ∧ ∀ now2 lim, now2 < o.nextAttemptAt →
            o ∉ fetchPending ((upsertWithEvents noFaults "ev-1" 5 emptyStore recU1 metaT).1).outbox now2 lim)
    ∧ (∃ o, ((deleteWithEvents noFaults "ev-2" 5 storeWithU1 "t1" "users" "u1" metaT).1).outbox =
          storeWithU1.outbox ++ [o]
        ∧ o.status = "pending" ∧ o.attempts = 0 ∧ o.lastError = ""
        ∧ o.createdAt = (normalizeMeta 5 metaT).occurredAt
        ∧ o.nextAttemptAt = (normalizeMeta 5 metaT).occurredAt
        ∧ (normalizeMeta 5 metaT).occurredAt =
            (if metaT.occurredAt = 0 then 5 else metaT.occurredAt)
        ∧ ∀ now2 lim, now2 < o.nextAttemptAt →
            o ∉ fetchPending ((deleteWithEvents noFaults "ev-2" 5 storeWithU1 "t1" "users" "u1" metaT).1).outbox now2 lim) := by
  constructor
  · exact (C10_outbox_row_initialization noFaults "ev-1" 5 emptyStore recU1 metaT
      "t1" "users" "u1" metaT).1
      (upsertWithEvents noFaults "ev-1" 5 emptyStore recU1 metaT).1 recU1Result (by rfl)
  · exact (C10_outbox_row_initialization noFaults "ev-2" 5 storeWithU1 recU1 metaT
      "t1" "users" "u1" metaT).2
      (deleteWithEvents noFaults "ev-2" 5 storeWithU1 "t1" "users" "u1" metaT).1 (by rfl)

theorem foldl_max_range1 (n : Nat) : (List.range' 1 n).foldl Nat.max 0 = n := by
  induction n with
  | zero => rfl
  | succ n ih =>
    rw [List.range'_1_concat, List.foldl_append, ih]
    simp [Nat.max_def]
    omega

theorem maxAggVersion_eq_length {audit : List AuditRow} (hInv : AggInv audit)
    (t c i : String) :
    maxAggVersion audit t c i = (versionsOf audit t c i).length := by
  have hdef : maxAggVersion audit t c i = (versionsOf audit t c i).foldl Nat.max 0 := rfl
  rw [hdef, hInv t c i, foldl_max_range1]
  simp

theorem versionsOf_append (audit : List AuditRow) (a : AuditRow) (t c i : String) :
    versionsOf (audit ++ [a]) t c i =
      versionsOf audit t c i ++
        (if aggKeyMatches a t c i then [a.aggregateVersion] else []) := by
  simp only [versionsOf, List.filter_append]
  by_cases hm : aggKeyMatches a t c i <;> simp [hm]

theorem AggInv_append {audit : List AuditRow} {a : AuditRow}
    (hInv : AggInv audit)
    (hver : a.aggregateVersion =
      nextAggregateVersion audit a.tenantID a.aggregateType a.aggregateID) :
    AggInv (audit ++ [a]) := by
  intro t c i
  by_cases hm : aggKeyMatches a t c i
  · obtain ⟨⟨h1, h2⟩, h3⟩ : (a.tenantID = t ∧ a.aggregateType = c) ∧ a.aggregateID = i := by
      simpa [aggKeyMatches, Bool.and_eq_true, beq_iff_eq] using hm
    subst h1; subst h2; subst h3
    rw [versionsOf_append, if_pos hm, hver, nextAggregateVersion,
      maxAggVersion_eq_length hInv]
    rw [hInv a.tenantID a.aggregateType a.aggregateID]
    set n := (versionsOf audit a.tenantID a.aggregateType a.aggregateID).length with hn
    simp [List.range'_1_concat, Nat.add_comm]
  · rw [versionsOf_append, if_neg hm]
    simp only [List.append_nil]
    exact hInv t c i

theorem AuditIdsWF_append {s s' : Store} {a : AuditRow}
    (hwf : AuditIdsWF s)
    (haud : s'.audit = s.audit ++ [a])
    (hid : a.id = s.nextAuditID)
    (hnext : s'.nextAuditID = s.nextAuditID + 1) :
    AuditIdsWF s' := by
  obtain ⟨hpair, hbound, hpos⟩ := hwf
  refine ⟨?_, ?_, ?_⟩
  · rw [haud, List.pairwise_append]
    refine ⟨hpair, by simp, ?_⟩
    intro x hx b hb
    simp only [List.mem_singleton] at hb
    subst hb
    rw [hid]
    exact (hbound x hx).2
  · intro r hr
    rw [haud] at hr
    rcases List.mem_append.mp hr with hr | hr
    · obtain ⟨h1, h2⟩ := hbound r hr
      exact ⟨h1, by omega⟩
    · simp only [List.mem_singleton] at hr
      subst hr
      rw [hid, hnext]
      exact ⟨hpos, by omega⟩
  · omega

/-- Claim C3: for every aggregate identity the audit rows' aggregate
versions in ascending id (= insertion) order form the gap-free sequence
1, 2, 3, …: both write operations preserve the invariant, the appended
row's version is computed as max(existing) + 1 inside the same
transaction, and the audit list stays in strictly ascending id order. -/
theorem C3_aggregate_versions_gap_free
    (f : StepFaults) (eid : String) (now0 : Nat) (s : Store) (rec : Record)
    (meta0 : MutationMetadata) (tenantID collection id : String)
    (dmeta : MutationMetadata) :
    (∀ s' r, upsertWithEvents f eid now0 s rec meta0 = (s', .ok r) →
      AggInv s.audit → AuditIdsWF s →
      AggInv s'.audit ∧ AuditIdsWF s'
        ∧ ∃ a, s'.audit = s.audit ++ [a]
            ∧ a.aggregateVersion =
                maxAggVersion s.audit rec.tenantID rec.collection rec.id + 1)
    ∧ (∀ s', deleteWithEvents f eid now0 s tenantID collection id dmeta = (s', .ok true) →
      AggInv s.audit → AuditIdsWF s →
      AggInv s'.audit ∧ AuditIdsWF s'
        ∧ ∃ a, s'.audit = s.audit ++ [a]
            ∧ a.aggregateVersion =
                maxAggVersion s.audit tenantID collection id + 1) := by
  constructor
  · intro s' r h hInv hwf
    obtain ⟨a, o, -, haud, -, hnextA, -, hida, heid, -, -, ht, hc, hi, hver, -,
      -, -, -, -, -, -⟩ := upsert_ok_shape h
    have hver' : a.aggregateVersion =
        nextAggregateVersion s.audit a.tenantID a.aggregateType a.aggregateID := by
      rw [ht, hc, hi]; exact hver
    refine ⟨?_, AuditIdsWF_append hwf haud hida hnextA, a, haud, hver⟩
    rw [haud]
    exact AggInv_append hInv hver'
  · intro s' h hInv hwf
    obtain ⟨a, o, before, -, -, haud, -, hnextA, -, hida, heid, -, -, ht, hc,
      hi, hver, -, -, -, -, -, -, -⟩ := delete_ok_true_shape h
    have hver' : a.aggregateVersion =
        nextAggregateVersion s.audit a.tenantID a.aggregateType a.aggregateID := by
      rw [ht, hc, hi]; exact hver
    refine ⟨?_, AuditIdsWF_append hwf haud hida hnextA, a, haud, hver⟩
    rw [haud]
    exact AggInv_append hInv hver'

theorem aggInv_emptyStore : AggInv emptyStore.audit := by
  intro t c i
  rfl

theorem auditIdsWF_emptyStore : AuditIdsWF emptyStore := by
  refine ⟨List.Pairwise.nil, ?_, Nat.le_refl 1⟩
  intro r hr
  simp [emptyStore] at hr

theorem aggInv_storeWithU1 : AggInv storeWithU1.audit := by
  intro t c i
  by_cases hm : aggKeyMatches auditRow1 t c i
  · simp only [storeWithU1, versionsOf, List.filter_cons, List.filter_nil, hm,
      if_true, List.map_cons, List.map_nil, List.length_cons, List.length_nil]
    rfl
  · simp [storeWithU1, versionsOf, hm]

theorem auditIdsWF_storeWithU1 : AuditIdsWF storeWithU1 := by
  refine ⟨?_, ?_, ?_⟩
  · simp [storeWithU1]
  · intro r hr
    simp only [storeWithU1, List.mem_singleton] at hr
    subst hr
    simp [auditRow1, storeWithU1]
  · decide

/-- Claim C3 witness: the invariant holds after the concrete upsert on
the empty store and after the concrete delete on a one-row store. -/
theorem C3_aggregate_versions_gap_free_witness :
    (AggInv ((upsertWithEvents noFaults "ev-1" 5 emptyStore recU1 metaT).1).audit
      ∧ AuditIdsWF (upsertWithEvents noFaults "ev-1" 5 emptyStore recU1 metaT).1
      ∧ ∃ a, ((upsertWithEvents noFaults "ev-1" 5 emptyStore recU1 metaT).1).audit =
            emptyStore.audit ++ [a]
          ∧ a.aggregateVersion =
              maxAggVersion emptyStore.audit recU1.tenantID recU1.collection recU1.id + 1)
    ∧ (AggInv ((deleteWithEvents noFaults "ev-2" 5 storeWithU1 "t1" "users" "u1" metaT).1).audit
      ∧ AuditIdsWF (deleteWithEvents noFaults "ev-2" 5 storeWithU1 "t1" "users" "u1" metaT).1
      ∧ ∃ a, ((deleteWithEvents noFaults "ev-2" 5 storeWithU1 "t1" "users" "u1" metaT).1).audit =
            storeWithU1.audit ++ [a]
          ∧ a.aggregateVersion = maxAggVersion storeWithU1.audit "t1" "users" "u1" + 1) := by
  constructor
  · exact (C3_aggregate_versions_gap_free noFaults "ev-1" 5 emptyStore recU1 metaT
      "t1" "users" "u1" metaT).1
      (upsertWithEvents noFaults "ev-1" 5 emptyStore recU1 metaT).1 recU1Result
      (by rfl) aggInv_emptyStore auditIdsWF_emptyStore
  · exact (C3_aggregate_versions_gap_free noFaults "ev-2" 5 storeWithU1 recU1 metaT
      "t1" "users" "u1" metaT).2
      (deleteWithEvents noFaults "ev-2" 5 storeWithU1 "t1" "users" "u1" metaT).1
      (by rfl) aggInv_storeWithU1 auditIdsWF_storeWithU1

/-- Claim C5: recording a publish or decode failure bumps the attempt
count to prior + 1; at 5 or more the event is marked dead and the dead
counter is incremented, otherwise it is marked failed with
next_attempt_at = now + backoff(attempts), where the code's backoff
equals the specification's (1 s for attempts ≤ 1, else attempts² seconds
capped at 5 minutes). -/
theorem C5_mark_failure_retry_policy
    (deps : DispatchDeps) (interval batchSize : Int) (now : Nat)
    (c : DispatchCounters) (ev : OutboxRow) (errMsg : String) :
    (5 ≤ ev.attempts + 1 →
      deps.markDead ev.id (ev.attempts + 1) errMsg = .ok () →
      markFailureGo deps (newOutboxDispatcher interval batchSize).maxRetry now c ev errMsg =
        .ok (.dead ev.id (ev.attempts + 1) errMsg, { c with dead := c.dead + 1 }))
    ∧ (ev.attempts + 1 < 5 →
      deps.markFailed ev.id (ev.attempts + 1)
          (now + backoffSpec (ev.attempts + 1)) errMsg = .ok () →
      markFailureGo deps (newOutboxDispatcher interval batchSize).maxRetry now c ev errMsg =
        .ok (.failed ev.id (ev.attempts + 1) (now + backoffSpec (ev.attempts + 1)) errMsg, c))
    ∧ (∀ attempt : Int, backoffDuration attempt = backoffSpec attempt) := by
  have hmr : (newOutboxDispatcher interval batchSize).maxRetry = 5 := rfl
  have hbk : ∀ attempt : Int, backoffDuration attempt = backoffSpec attempt := by
    intro attempt
    unfold backoffDuration backoffSpec
    split
    · rfl
    · rename_i hgt
      by_cases hc : attempt * attempt > 300
      · rw [if_pos hc]
        have : ¬ (attempt * attempt).toNat ≤ 300 := by omega
        simp [Nat.min_def, this]
      · rw [if_neg hc]
        have : (attempt * attempt).toNat ≤ 300 := by omega
        simp [Nat.min_def, this]
  refine ⟨?_, ?_, hbk⟩
  · intro hge hdead
    rw [hmr]
    unfold markFailureGo
    rw [if_pos hge, hdead]
  · intro hlt hfail
    rw [hmr]
    unfold markFailureGo
    rw [if_neg (by omega), hbk (ev.attempts + 1)]
    simp only [hfail]

/-- Claim C5 witness: a fifth failure dead-letters the event and bumps
the dead counter; a second failure reschedules it 4 seconds later. -/
theorem C5_mark_failure_retry_policy_witness :
    (markFailureGo depsDecodeFail (newOutboxDispatcher 0 0).maxRetry 100 counters0
        outboxEvA "boom" =
      .ok (.dead outboxEvA.id (outboxEvA.attempts + 1) "boom",
        { counters0 with dead := counters0.dead + 1 }))
    ∧ (markFailureGo depsDecodeFail (newOutboxDispatcher 0 0).maxRetry 100 counters0
        outboxEvB "boom" =
      .ok (.failed outboxEvB.id (outboxEvB.attempts + 1)
        (100 + backoffSpec (outboxEvB.attempts + 1)) "boom", counters0)) := by
  constructor
  · exact (C5_mark_failure_retry_policy depsDecodeFail 0 0 100 counters0 outboxEvA
      "boom").1 (by decide) (by rfl)
  · exact (C5_mark_failure_retry_policy depsDecodeFail 0 0 100 counters0 outboxEvB
      "boom").2.1 (by decide) (by rfl)

theorem markFailureGo_ok_exists (deps : DispatchDeps) (maxRetry : Int) (now : Nat)
    (c : DispatchCounters) (ev : OutboxRow) (msg : String)
    (hf : ∀ i a n m, deps.markFailed i a n m = .ok ())
    (hd : ∀ i a m, deps.markDead i a m = .ok ()) :
    ∃ call c1, markFailureGo deps maxRetry now c ev msg = .ok (call, c1) := by
  unfold markFailureGo
  by_cases hcond : ev.attempts + 1 ≥ maxRetry
  · simp only [if_pos hcond, hd]
    exact ⟨_, _, rfl⟩
  · simp only [if_neg hcond, hf]
    exact ⟨_, _, rfl⟩

/-- Claim C8: within one dispatch_batch call, a single event's decode or
publish failure never aborts the batch — the dispatcher records the
failure and continues with the remaining fetched events — whereas a
failure of any repository mark-call (MarkDispatched, MarkFailed or
MarkDead) aborts the batch with that error. -/
theorem C8_single_event_failure_confined
    (deps : DispatchDeps) (maxRetry : Int) (now : Nat) :
    ((∀ i, deps.markDispatched i = .ok ()) →
      (∀ i a n m, deps.markFailed i a n m = .ok ()) →
      (∀ i a m, deps.markDead i a m = .ok ()) →
      ∀ events c calls,
        (dispatchBatchGo deps maxRetry now c calls events).2.2 = none
          ∧ (dispatchBatchGo deps maxRetry now c calls events).2.1.length =
              calls.length + events.length)
    ∧ (∀ ev rest c calls e m, deps.decode ev.payloadJSON = .error e →
        markFailureGo deps maxRetry now c ev ("decode payload: " ++ e) = .error m →
        dispatchBatchGo deps maxRetry now c calls (ev :: rest) = (c, calls, some m))
    ∧ (∀ ev rest c calls env e m, deps.decode ev.payloadJSON = .ok env →
        deps.publish ev.topic env = .error e →
        markFailureGo deps maxRetry now c ev e = .error m →
        dispatchBatchGo deps maxRetry now c calls (ev :: rest) = (c, calls, some m))
    ∧ (∀ ev rest c calls env m, deps.decode ev.payloadJSON = .ok env →
        deps.publish ev.topic env = .ok () →
        deps.markDispatched ev.id = .error m →
        dispatchBatchGo deps maxRetry now c calls (ev :: rest) = (c, calls, some m)) := by
  refine ⟨?_, ?_, ?_, ?_⟩
  · intro hmd hmf hmdd events
    induction events with
    | nil =>
      intro c calls
      exact ⟨rfl, by simp [dispatchBatchGo]⟩
    | cons ev rest ih =>
      intro c calls
      cases hdec : deps.decode ev.payloadJSON with
      | error e =>
        obtain ⟨call, c1, hmk⟩ :=
          markFailureGo_ok_exists deps maxRetry now c ev ("decode payload: " ++ e) hmf hmdd
        have hstep : dispatchBatchGo deps maxRetry now c calls (ev :: rest) =
            dispatchBatchGo deps maxRetry now { c1 with failure := c1.failure + 1 }
              (calls ++ [call]) rest := by
          simp only [dispatchBatchGo, hdec, hmk]
        rw [hstep]
        obtain ⟨h1, h2⟩ := ih { c1 with failure := c1.failure + 1 } (calls ++ [call])
        refine ⟨h1, ?_⟩
        rw [h2]
        simp
        omega
      | ok env =>
        cases hpub : deps.publish ev.topic env with
        | error e =>
          obtain ⟨call, c1, hmk⟩ :=
            markFailureGo_ok_exists deps maxRetry now c ev e hmf hmdd
          have hstep : dispatchBatchGo deps maxRetry now c calls (ev :: rest) =
              dispatchBatchGo deps maxRetry now { c1 with failure := c1.failure + 1 }
                (calls ++ [call]) rest := by
            simp only [dispatchBatchGo, hdec, hpub, hmk]
          rw [hstep]
          obtain ⟨h1, h2⟩ := ih { c1 with failure := c1.failure + 1 } (calls ++ [call])
          refine ⟨h1, ?_⟩
          rw [h2]
          simp
          omega
        | ok u =>
          cases u
          have hstep : dispatchBatchGo deps maxRetry now c calls (ev :: rest) =
              dispatchBatchGo deps maxRetry now { c with success := c.success + 1 }
                (calls ++ [.dispatched ev.id]) rest := by
            simp only [dispatchBatchGo, hdec, hpub, hmd]
          rw [hstep]
          obtain ⟨h1, h2⟩ := ih { c with success := c.success + 1 }
            (calls ++ [.dispatched ev.id])
          refine ⟨h1, ?_⟩
          rw [h2]
          simp
          omega
  · intro ev rest c calls e m hdec hmk
    simp only [dispatchBatchGo, hdec, hmk]
  · intro ev rest c calls env e m hdec hpub hmk
    simp only [dispatchBatchGo, hdec, hpub, hmk]
  · intro ev rest c calls env m hdec hpub hmd
    simp only [dispatchBatchGo, hdec, hpub, hmd]

/-- Claim C8 witness: with always-failing decode but healthy mark-calls a
concrete two-event batch completes without aborting and performs one
mark per event. -/
theorem C8_single_event_failure_confined_witness :
    (dispatchBatchGo depsDecodeFail 5 100 counters0 [] [outboxEvA, outboxEvB]).2.2 = none
      ∧ (dispatchBatchGo depsDecodeFail 5 100 counters0 [] [outboxEvA, outboxEvB]).2.1.length =
          ([] : List MarkCall).length + [outboxEvA, outboxEvB].length :=
  (C8_single_event_failure_confined depsDecodeFail 5 100).1
    (fun _ => rfl) (fun _ _ _ _ => rfl) (fun _ _ _ => rfl)
    [outboxEvA, outboxEvB] counters0 []

/-- Claim C9: when an envelope's schema_version is below the current
version and no upcaster is registered for the version reached, Normalize
fails with a MissingUpcaster error naming that version; the replay batch
loop surfaces a normalize failure as its error — the failing event is
not applied, no later event is applied — and the outer replay loop
aborts with that error instead of skipping the event. -/
theorem C9_missing_upcaster_surfaces
    (codec : EventCodec) (audit : List AuditRow) (tenantID : String)
    (batchSize : Int) (applyFn : ReplayEvent → Except String Unit) :
    (∀ env : EventEnvelope, env.schemaVersion < currentEventSchemaVersion →
      lookupUpcaster codec env.schemaVersion = none →
      normalizeEnv codec env = .error (.missingUpcaster env.schemaVersion))
    ∧ (∀ e rest afterID ce,
        normalizeEnv codec (envelopeOfAudit e) = .error ce →
        replayBatch codec applyFn (e :: rest) afterID =
          ([], afterID, some (.normalizeFailed e.eventID ce)))
    ∧ (∀ fuel afterID events tr aid err,
        auditServiceList audit
            { tenantID := tenantID, aggregateType := "", aggregateID := "",
              action := "", afterID := afterID, limit := batchSize } = .ok events →
        events ≠ [] →
        replayBatch codec applyFn events afterID = (tr, aid, some err) →
        replayLoop codec audit tenantID batchSize applyFn (fuel + 1) afterID =
          (tr, some err)) := by
  refine ⟨?_, ?_, ?_⟩
  · intro env hlt hlook
    unfold normalizeEnv normalizeFuel
    simp only [normalizeGo, if_pos hlt, hlook]
  · intro e rest afterID ce hnorm
    simp only [replayBatch, hnorm]
  · intro fuel afterID events tr aid err hlist hne hbatch
    have hempty : events.isEmpty = false := by
      cases events with
      | nil => exact absurd rfl hne
      | cons x xs => rfl
    simp only [replayLoop, hlist, hempty, Bool.false_eq_true, if_false, hbatch]

/-- Claim C9 witness: replaying an audit row persisted at schema version
0 through a codec with no upcasters aborts with MissingUpcaster 0. -/
theorem C9_missing_upcaster_surfaces_witness :
    (normalizeEnv emptyCodec (envelopeOfAudit auditRow0) =
        .error (.missingUpcaster auditRow0.schemaVersion))
      ∧ replayBatch emptyCodec applyOk [auditRow0] 0 =
          ([], 0, some (.normalizeFailed auditRow0.eventID (.missingUpcaster 0)))
      ∧ replayLoop emptyCodec [auditRow0] "t1" 10 applyOk 3 0 =
          ([], some (.normalizeFailed auditRow0.eventID (.missingUpcaster 0))) := by
  have h := C9_missing_upcaster_surfaces emptyCodec [auditRow0] "t1" 10 applyOk
  have h1 : normalizeEnv emptyCodec (envelopeOfAudit auditRow0) =
      .error (.missingUpcaster auditRow0.schemaVersion) :=
    h.1 (envelopeOfAudit auditRow0) (by decide) (by rfl)
  have h2 : replayBatch emptyCodec applyOk [auditRow0] 0 =
      ([], 0, some (.normalizeFailed auditRow0.eventID (.missingUpcaster 0))) :=
    h.2.1 auditRow0 [] 0 (.missingUpcaster 0) h1
  refine ⟨h1, h2, ?_⟩
  exact h.2.2 2 0 [auditRow0] [] 0
    (.normalizeFailed auditRow0.eventID (.missingUpcaster 0)) (by rfl)
    (by simp) h2

theorem auditRepoList_mem {audit : List AuditRow} {f : AuditFilter} {x : AuditRow}
    (h : x ∈ auditRepoList audit f) :
    x ∈ audit ∧ (f.afterID = 0 ∨ x.id < f.afterID) := by
  unfold auditRepoList at h
  have h1 := List.mem_of_mem_take h
  rw [List.mem_reverse] at h1
  have h2 := List.mem_filter.mp h1
  refine ⟨h2.1, ?_⟩
  have h3 := h2.2
  simp only [Bool.and_eq_true, Bool.or_eq_true, decide_eq_true_eq] at h3
  exact h3.2

theorem auditRepoList_pairwise {audit : List AuditRow} {f : AuditFilter}
    (hp : List.Pairwise (fun a b => a.id < b.id) audit) :
    List.Pairwise (fun a b => b.id < a.id) (auditRepoList audit f) := by
  unfold auditRepoList
  refine List.Pairwise.sublist (List.take_sublist _ _) ?_
  rw [List.pairwise_reverse]
  exact List.Pairwise.filter _ hp

theorem auditServiceList_shape {audit : List AuditRow} {f : AuditFilter}
    {events : List AuditRow}
    (h : auditServiceList audit f = .ok events) :
    ∃ lim, events = auditRepoList audit { f with limit := lim } := by
  unfold auditServiceList at h
  split at h
  · simp at h
  · split at h
    · simp at h
    · split at h
      · simp at h
      · simp only [Except.ok.injEq] at h
        exact ⟨_, h.symm⟩

theorem replayBatch_facts (codec : EventCodec)
    (applyFn : ReplayEvent → Except String Unit) :
    ∀ (events : List AuditRow) (afterID : Nat),
      List.Pairwise (fun a b => b.id < a.id) events →
      (∀ x ∈ (replayBatch codec applyFn events afterID).1,
          x.auditID ∈ events.map (fun r => r.id))
      ∧ List.Pairwise (fun x y => y.auditID < x.auditID)
          (replayBatch codec applyFn events afterID).1
      ∧ ((replayBatch codec applyFn events afterID).2.2 = none →
          (events = [] ∧ (replayBatch codec applyFn events afterID).2.1 = afterID)
          ∨ ((replayBatch codec applyFn events afterID).2.1 ∈
                events.map (fun r => r.id)
              ∧ ∀ x ∈ events, (replayBatch codec applyFn events afterID).2.1 ≤ x.id)) := by
  intro events
  induction events with
  | nil =>
    intro afterID _
    refine ⟨by simp [replayBatch], by simp [replayBatch], ?_⟩
    intro _
    exact Or.inl ⟨rfl, rfl⟩
  | cons e rest ih =>
    intro afterID hpair
    rw [List.pairwise_cons] at hpair
    obtain ⟨hhead, htail⟩ := hpair
    cases hnorm : normalizeEnv codec (envelopeOfAudit e) with
    | error ce =>
      refine ⟨?_, ?_, ?_⟩ <;> simp [replayBatch, hnorm]
    | ok n =>
      cases happ : applyFn { envelope := n, auditID := e.id } with
      | error msg =>
        refine ⟨?_, ?_, ?_⟩ <;> simp [replayBatch, hnorm, happ]
      | ok u =>
        cases u
        obtain ⟨ihA, ihB, ihC⟩ := ih e.id htail
        rcases hrec : replayBatch codec applyFn rest e.id with ⟨tr, rest2⟩
        obtain ⟨aid, res⟩ := rest2
        rw [hrec] at ihA ihB ihC
        dsimp only at ihA ihB ihC
        have hstep : replayBatch codec applyFn (e :: rest) afterID =
            ({ envelope := n, auditID := e.id } :: tr, aid, res) := by
          simp only [replayBatch, hnorm, happ, hrec]
        rw [hstep]
        dsimp only
        refine ⟨?_, ?_, ?_⟩
        · intro x hx
          rcases List.mem_cons.mp hx with hx | hx
          · subst hx
            simp
          · simp only [List.map_cons, List.mem_cons]
            exact Or.inr (ihA x hx)
        · rw [List.pairwise_cons]
          refine ⟨?_, ihB⟩
          intro y hy
          have hmem := ihA y hy
          simp only [List.mem_map] at hmem
          obtain ⟨r, hr, hrid⟩ := hmem
          have := hhead r hr
          simp only []
          omega
        · intro hres
          rcases ihC hres with ⟨hnil, haid⟩ | ⟨hmem, hle⟩
          · subst hnil
            right
            refine ⟨by simp [haid], ?_⟩
            intro x hx
            rcases List.mem_cons.mp hx with hx | hx
            · subst hx; omega
            · simp at hx
          · right
            simp only [List.mem_map] at hmem
            obtain ⟨r, hr, hrid⟩ := hmem
            refine ⟨?_, ?_⟩
            · simp only [List.map_cons, List.mem_cons]
              exact Or.inr (by exact List.mem_map.mpr ⟨r, hr, hrid⟩)
            · intro x hx
              rcases List.mem_cons.mp hx with hx | hx
              · subst hx
                have := hhead r hr
                omega
              · exact hle x hx

theorem replayLoop_desc (codec : EventCodec) (audit : List AuditRow)
    (tenantID : String) (batchSize : Int)
    (applyFn : ReplayEvent → Except String Unit)
    (hp : List.Pairwise (fun a b => a.id < b.id) audit)
    (hpos : ∀ r ∈ audit, 1 ≤ r.id) :
    ∀ (fuel afterID : Nat),
      List.Pairwise (fun x y => y.auditID < x.auditID)
        ((replayLoop codec audit tenantID batchSize applyFn fuel afterID).1)
      ∧ ∀ x ∈ (replayLoop codec audit tenantID batchSize applyFn fuel afterID).1,
          (afterID = 0 ∨ x.auditID < afterID) ∧ 1 ≤ x.auditID := by
  intro fuel
  induction fuel with
  | zero =>
    intro afterID
    exact ⟨by simp [replayLoop], by simp [replayLoop]⟩
  | succ fuel ih =>
    intro afterID
    cases hserv : auditServiceList audit
        { tenantID := tenantID, aggregateType := "", aggregateID := "",
          action := "", afterID := afterID, limit := batchSize } with
    | error e =>
      have hloop : replayLoop codec audit tenantID batchSize applyFn (fuel + 1) afterID =
          ([], some (.listFailed e)) := by
        simp only [replayLoop, hserv]
      rw [hloop]
      exact ⟨List.Pairwise.nil, by simp⟩
    | ok events =>
      obtain ⟨lim, hev⟩ := auditServiceList_shape hserv
      have hpair_ev : List.Pairwise (fun a b => b.id < a.id) events := by
        rw [hev]; exact auditRepoList_pairwise hp
      have hmem_ev : ∀ x ∈ events, x ∈ audit ∧ (afterID = 0 ∨ x.id < afterID) := by
        intro x hx
        rw [hev] at hx
        exact auditRepoList_mem hx
      by_cases hemp : events.isEmpty
      · have hloop : replayLoop codec audit tenantID batchSize applyFn (fuel + 1) afterID =
            ([], none) := by
          simp only [replayLoop, hserv, hemp, if_true]
        rw [hloop]
        exact ⟨List.Pairwise.nil, by simp⟩
      · have hempf : events.isEmpty = false := by
          cases h : events.isEmpty
          · rfl
          · exact absurd h hemp
        obtain ⟨hA, hB, hC⟩ := replayBatch_facts codec applyFn events afterID hpair_ev
        rcases hbatch : replayBatch codec applyFn events afterID with ⟨tr, rest2⟩
        obtain ⟨aid, res⟩ := rest2
        rw [hbatch] at hA hB hC
        dsimp only at hA hB hC
        have hxbound : ∀ x ∈ tr, (afterID = 0 ∨ x.auditID < afterID) ∧ 1 ≤ x.auditID := by
          intro x hx
          have := hA x hx
          simp only [List.mem_map] at this
          obtain ⟨r, hr, hrid⟩ := this
          obtain ⟨hraud, hrb⟩ := hmem_ev r hr
          have hr1 := hpos r hraud
          omega
        cases res with
        | some err =>
          have hloop : replayLoop codec audit tenantID batchSize applyFn (fuel + 1) afterID =
              (tr, some err) := by
            simp only [replayLoop, hserv, hempf, Bool.false_eq_true, if_false, hbatch]
          rw [hloop]
          exact ⟨hB, hxbound⟩
        | none =>
          rcases hC rfl with ⟨hnil, -⟩ | ⟨haidmem, haidle⟩
          · subst hnil
            simp at hempf
          · have haid1 : 1 ≤ aid ∧ (afterID = 0 ∨ aid < afterID) := by
              simp only [List.mem_map] at haidmem
              obtain ⟨r, hr, hrid⟩ := haidmem
              obtain ⟨hraud, hrb⟩ := hmem_ev r hr
              have := hpos r hraud
              omega
            obtain ⟨ihB, ihbound⟩ := ih aid
            have hloop : replayLoop codec audit tenantID batchSize applyFn (fuel + 1) afterID =
                (tr ++ (replayLoop codec audit tenantID batchSize applyFn fuel aid).1,
                 (replayLoop codec audit tenantID batchSize applyFn fuel aid).2) := by
              simp only [replayLoop, hserv, hempf, Bool.false_eq_true, if_false, hbatch]
            rw [hloop]
            dsimp only
            constructor
            · rw [List.pairwise_append]
              refine ⟨hB, ihB, ?_⟩
              intro x hx y hy
              obtain ⟨hyb, hy1⟩ := ihbound y hy
              have hxm := hA x hx
              simp only [List.mem_map] at hxm
              obtain ⟨r, hr, hrid⟩ := hxm
              have := haidle r hr
              omega
            · intro x hx
              rcases List.mem_append.mp hx with hx | hx
              · exact hxbound x hx
              · obtain ⟨hyb, hy1⟩ := ihbound x hx
                refine ⟨?_, hy1⟩
                obtain ⟨ha1, hab⟩ := haid1
                rcases hab with h0 | hlt
                · left; exact h0
                · right; omega

/-- Claim C4 (amended): ReplayTenantEvents streams the tenant's audit
events newest-to-oldest: on any well-formed audit table (strictly
ascending positive ids) the envelopes passed to apply_fn are ordered by
strictly descending audit id. -/
theorem C4_replay_descending_id_order (codec : EventCodec) (audit : List AuditRow)
    (tenantID : String) (batchSize : Int)
    (applyFn : ReplayEvent → Except String Unit) (fuel : Nat)
    (hwf : AuditListWF audit) :
    List.Pairwise (fun x y => y.auditID < x.auditID)
      ((replayTenantEvents codec audit tenantID batchSize applyFn fuel).1) := by
  obtain ⟨hp, hpos⟩ := hwf
  have hb : ∀ r ∈ audit, 1 ≤ r.id := hpos
  exact (replayLoop_desc codec audit tenantID batchSize applyFn hp hb fuel 0).1

/-- Claim C4 counterexample: with two audit rows (ids 1 and 2) for
tenant t1, the applier receives audit ids [2, 1] — descending, not
ascending as the claim states. -/
theorem C4_replay_ascending_refuted :
    ((replayTenantEvents emptyCodec [auditRow1, auditRow2] "t1" 10 applyOk 5).1.map
        (fun ev => ev.auditID) = [2, 1])
      ∧ ¬ List.Pairwise (fun x y => x < y)
          ((replayTenantEvents emptyCodec [auditRow1, auditRow2] "t1" 10 applyOk 5).1.map
            (fun ev => ev.auditID)) := by
  have h : (replayTenantEvents emptyCodec [auditRow1, auditRow2] "t1" 10 applyOk 5).1.map
      (fun ev => ev.auditID) = [2, 1] := by rfl
  refine ⟨h, ?_⟩
  rw [h]
  decide

/-- Claim C4 (amended) witness: the concrete two-row replay satisfies the
descending-order property. -/
theorem C4_replay_descending_id_order_witness :
    List.Pairwise (fun x y => y.auditID < x.auditID)
      ((replayTenantEvents emptyCodec [auditRow1, auditRow2] "t1" 10 applyOk 5).1) :=
  C4_replay_descending_id_order emptyCodec [auditRow1, auditRow2] "t1" 10 applyOk 5
    ⟨by decide, by decide⟩
